import Mathlib

/-!
Verification of the day-over-day domain metrics diff engine and the
dashboard stats route of the `antig1` repository.

The scheduled Python script (`bigquery_domain_analysis.py`) is not part of
the checked-in sources; its diff engine and ranking helper are therefore
modelled from the specification (spec.md §3, §4.1, §4.2) and from
`PROJECT_DOCUMENTATION.md` (Data Processing Engine, lines 339–368).
The dashboard stats route is embedded from `src/app/api/stats/route.ts`.
-/

/-- Modelled from the spec: one row per `(date, domain_name)` with the two
numeric measures `active_users` and `pageviews` (non-negative integers).
The date is not an input to the diff algorithm itself (spec §4.1), so it is
omitted from the record. -/
structure MetricSnapshot where
  domain_name : String
  active_users : Nat
  pageviews : Nat
deriving DecidableEq, Repr

/-- Modelled from the spec: the core output entity of the diff engine,
one per distinct `domain_name` observed on either input date (spec §3). -/
structure DomainComparison where
  domain_name : String
  previous_users : Nat
  latest_users : Nat
  previous_views : Nat
  latest_views : Nat
  users_change : Int
  views_change : Int
  users_pct_change : ℚ
  views_pct_change : ℚ
deriving DecidableEq, Repr

/-- Modelled from the spec: rounding to one decimal place,
`round(x, 1)` (spec §4.1 step 3).  Halves round up. -/
def round1 (q : ℚ) : ℚ := ((⌊q * 10 + 1 / 2⌋ : ℤ) : ℚ) / 10

/-- Modelled from the spec: percentage change `(change / previous) × 100`
rounded to one decimal place, defined as 0 when `previous` is 0
(spec §3, §4.1 step 3). -/
def pctChange (previousVal : Nat) (change : Int) : ℚ :=
  if previousVal = 0 then 0 else round1 ((change : ℚ) / (previousVal : ℚ) * 100)

/-- The list of domain names of a snapshot collection. -/
def domainNames (l : List MetricSnapshot) : List String :=
  l.map (·.domain_name)

/-- Lookup of a snapshot by domain name (first match). -/
def findSnap (name : String) (l : List MetricSnapshot) : Option MetricSnapshot :=
  l.find? (fun s => s.domain_name == name)

/-- Modelled from the spec: the union of the domain names of the two
snapshot sets, previous-side names first, then the latest-side names not
already present (spec §4.1 step 1, §9: "iterate the union of keys"). -/
def unionNames (previous latest : List MetricSnapshot) : List String :=
  domainNames previous ++
    (domainNames latest).filter (fun n => !(domainNames previous).contains n)

/-- Modelled from the spec: the output row for one domain name — zero-fill
for the absent side, absolute change `latest − previous`, percentage change
with the zero-previous override (spec §4.1 steps 1–3). -/
def mkComparison (previous latest : List MetricSnapshot) (name : String) :
    DomainComparison :=
  let pu : Nat := ((findSnap name previous).map (·.active_users)).getD 0
  let pv : Nat := ((findSnap name previous).map (·.pageviews)).getD 0
  let lu : Nat := ((findSnap name latest).map (·.active_users)).getD 0
  let lv : Nat := ((findSnap name latest).map (·.pageviews)).getD 0
  { domain_name := name
    previous_users := pu
    latest_users := lu
    previous_views := pv
    latest_views := lv
    users_change := (lu : Int) - (pu : Int)
    views_change := (lv : Int) - (pv : Int)
    users_pct_change := pctChange pu ((lu : Int) - (pu : Int))
    views_pct_change := pctChange pv ((lv : Int) - (pv : Int)) }

/-- Modelled from the spec: the diff engine
`compareDomains(previous, latest) -> DomainComparison[]` — a full outer
join on `domain_name` realised as a merge over the union of keys
(spec §4.1). -/
def compareDomains (previous latest : List MetricSnapshot) :
    List DomainComparison :=
  (unionNames previous latest).map (mkComparison previous latest)

/-- Byte-wise lexicographic order on character lists (ascending Unicode
code points), the string order used for the ranking tie-break. -/
def charListLe : List Char → List Char → Bool
  | [], _ => true
  | _ :: _, [] => false
  | a :: as, b :: bs =>
    if a < b then true
    else if b < a then false
    else charListLe as bs

/-- Lexicographic order on domain names (ascending code points). -/
def domainNameLe (a b : String) : Bool := charListLe a.toList b.toList

/-- Modelled from the spec: the ranking order of the ranking helper —
descending signed change for the selected measure, ties broken by
`domain_name` ascending (spec §4.2). -/
def rankLE (sel : DomainComparison → Int) (a b : DomainComparison) : Prop :=
  sel b < sel a ∨ (sel a = sel b ∧ domainNameLe a.domain_name b.domain_name = true)

instance rankLEDecidable (sel : DomainComparison → Int) : DecidableRel (rankLE sel) :=
  fun a b => by unfold rankLE; infer_instance

/-- Modelled from the spec: the result of the ranking helper — the top-N
rows, the counts of gainers and decliners, and the total change over the
full set (spec §4.2). -/
structure RankingReport where
  top : List DomainComparison
  gainers : Nat
  decliners : Nat
  total_change : Int
deriving DecidableEq, Repr

/-- Modelled from the spec: the ranking helper — top-N by descending signed
change with ties broken by `domain_name` ascending, counts of rows with
positive change (gainers) and negative change (decliners), and the sum of
all changes for the measure across the full set (spec §4.2). -/
def rankDomains (sel : DomainComparison → Int) (n : Nat)
    (rows : List DomainComparison) : RankingReport :=
  { top := (List.insertionSort (rankLE sel) rows).take n
    gainers := (rows.filter (fun r => decide (0 < sel r))).length
    decliners := (rows.filter (fun r => decide (sel r < 0))).length
    total_change := (rows.map sel).sum }

/-! ### The dashboard stats route, from `src/app/api/stats/route.ts` -/

/-- The three request types of the `switch (type)` statement in
`src/app/api/stats/route.ts` (lines 12–44). -/
inductive StatsQueryType where
  | trend
  | topDomains
  | platform
deriving DecidableEq, Repr

/-- The fixed SQL text assigned to `query` in each `case` of
`src/app/api/stats/route.ts` (whitespace normalised to single spaces). -/
def statsQuerySQL : StatsQueryType → String
  | .trend =>
      "SELECT date, SUM(total_screenPageViews) as total_views FROM `iab-publisher-data.dap_daily.dap_domain` GROUP BY date ORDER BY date ASC"
  | .topDomains =>
      "SELECT domain_name, monthly_pageviews FROM `iab-publisher-data.da_monthly.mv_domain_monthly_metrics` ORDER BY monthly_pageviews DESC LIMIT 5"
  | .platform =>
      "SELECT platform, SUM(total_screenPageViews) as total_views FROM `iab-publisher-data.dap_daily.dap_domain` GROUP BY platform"

/-- The table named in the FROM clause of each query of
`src/app/api/stats/route.ts`. -/
def statsQueryTable : StatsQueryType → String
  | .trend => "iab-publisher-data.dap_daily.dap_domain"
  | .topDomains => "iab-publisher-data.da_monthly.mv_domain_monthly_metrics"
  | .platform => "iab-publisher-data.dap_daily.dap_domain"

/-- The `params` array passed alongside each query in
`src/app/api/stats/route.ts` (line 10: `let params: any[] = []`, never
reassigned). -/
def statsQueryParams : StatsQueryType → List String := fun _ => []

/-- The BigQuery table queried by the scheduled script, from
`PROJECT_DOCUMENTATION.md` (line 145) and `SETUP.md`:
`iab-publisher-data.dap_daily.dap_domain` (also the table of
`verify_data.js`). -/
def scheduledScriptTable : String := "iab-publisher-data.dap_daily.dap_domain"

/-- The `type` query-parameter dispatch of the `switch` in
`src/app/api/stats/route.ts`: a missing parameter
(`searchParams.get` returns null) or any unrecognised string falls through
to the `default` branch, modelled as `none`. -/
def parseStatsType : Option String → Option StatsQueryType
  | some "trend" => some .trend
  | some "top-domains" => some .topDomains
  | some "platform" => some .platform
  | _ => none

/-- A JavaScript value as it appears in a BigQuery result row in
`src/app/api/stats/route.ts`: a plain number, a BigInt, a string, a
structured date object carrying a `.value` string, or null. -/
inductive BQValue where
  | num (n : Int)
  | bigint (n : Int)
  | str (s : String)
  | dateObj (value : String)
  | null
deriving DecidableEq, Repr

/-- A BigQuery result row: a JavaScript object modelled as an association
list (keys unique in an actual JS object). -/
abbrev BQRow := List (String × BQValue)

/-- The `if (newRow.date && newRow.date.value) newRow.date = newRow.date.value`
step of `src/app/api/stats/route.ts` (line 51): the field named `date` is
replaced by its `.value` when it is a structured date object and its value
is truthy (a non-empty string); every other shape of the `date` field, and
every other field, is left alone. -/
def unwrapDate (row : BQRow) : BQRow :=
  row.map (fun kv =>
    if kv.1 = "date" then
      match kv.2 with
      | BQValue.dateObj v => if v = "" then kv else ("date", BQValue.str v)
      | _ => kv
    else kv)

/-- The `if (typeof newRow[key] === 'bigint') newRow[key] = Number(newRow[key])`
step of `src/app/api/stats/route.ts` (lines 53–57), applied to one value. -/
def serializeField : BQValue → BQValue
  | BQValue.bigint n => BQValue.num n
  | v => v

/-- The row serialisation of `src/app/api/stats/route.ts` (lines 49–59):
unwrap a structured `date`, then convert every BigInt field to a number. -/
def serializeRow (row : BQRow) : BQRow :=
  (unwrapDate row).map (fun kv => (kv.1, serializeField kv.2))

/-- The body of a stats response: either an error object
`{ error: msg }` or a list of serialised rows. -/
inductive StatsBody where
  | errorMsg (msg : String)
  | rows (rs : List BQRow)
deriving DecidableEq, Repr

/-- An HTTP response of the stats route: status code, JSON body, and the
SQL text of the BigQuery query issued while handling the request
(none when no query was issued). -/
structure StatsResponse where
  status : Nat
  body : StatsBody
  issuedQuery : Option String
deriving DecidableEq, Repr

/-- The `GET` handler of `src/app/api/stats/route.ts`.  `typeParam` is the
`type` query parameter (`searchParams.get('type')`, null modelled as
`none`); `bq` is the BigQuery collaborator, returning either the result
rows or a thrown error.  An unrecognised type returns 400 without issuing
a query; a query failure is caught and returns 500. -/
def GET (typeParam : Option String)
    (bq : String → Except String (List BQRow)) : StatsResponse :=
  match parseStatsType typeParam with
  | none => { status := 400, body := StatsBody.errorMsg "Invalid type", issuedQuery := none }
  | some t =>
    match bq (statsQuerySQL t) with
    | Except.ok rows =>
        { status := 200
          body := StatsBody.rows (rows.map serializeRow)
          issuedQuery := some (statsQuerySQL t) }
    | Except.error _ =>
        { status := 500
          body := StatsBody.errorMsg "Internal Server Error"
          issuedQuery := some (statsQuerySQL t) }

/-! ### Helper lemmas about the diff engine -/

@[simp]
theorem mkComparison_domain_name (previous latest : List MetricSnapshot)
    (name : String) : (mkComparison previous latest name).domain_name = name := rfl

theorem mkComparison_previous_users (previous latest : List MetricSnapshot)
    (name : String) :
    (mkComparison previous latest name).previous_users =
      ((findSnap name previous).map (·.active_users)).getD 0 := rfl

theorem mkComparison_previous_views (previous latest : List MetricSnapshot)
    (name : String) :
    (mkComparison previous latest name).previous_views =
      ((findSnap name previous).map (·.pageviews)).getD 0 := rfl

theorem mkComparison_latest_users (previous latest : List MetricSnapshot)
    (name : String) :
    (mkComparison previous latest name).latest_users =
      ((findSnap name latest).map (·.active_users)).getD 0 := rfl

theorem mkComparison_latest_views (previous latest : List MetricSnapshot)
    (name : String) :
    (mkComparison previous latest name).latest_views =
      ((findSnap name latest).map (·.pageviews)).getD 0 := rfl

theorem mkComparison_users_change (previous latest : List MetricSnapshot)
    (name : String) :
    (mkComparison previous latest name).users_change =
      ((mkComparison previous latest name).latest_users : Int) -
        ((mkComparison previous latest name).previous_users : Int) := rfl

theorem mkComparison_views_change (previous latest : List MetricSnapshot)
    (name : String) :
    (mkComparison previous latest name).views_change =
      ((mkComparison previous latest name).latest_views : Int) -
        ((mkComparison previous latest name).previous_views : Int) := rfl

theorem mkComparison_users_pct (previous latest : List MetricSnapshot)
    (name : String) :
    (mkComparison previous latest name).users_pct_change =
      pctChange (mkComparison previous latest name).previous_users
        (mkComparison previous latest name).users_change := rfl

theorem mkComparison_views_pct (previous latest : List MetricSnapshot)
    (name : String) :
    (mkComparison previous latest name).views_pct_change =
      pctChange (mkComparison previous latest name).previous_views
        (mkComparison previous latest name).views_change := rfl

theorem compareDomains_names (previous latest : List MetricSnapshot) :
    (compareDomains previous latest).map (·.domain_name) =
      unionNames previous latest := by
  unfold compareDomains
  induction unionNames previous latest with
  | nil => rfl
  | cons n ns ih => simp only [List.map_cons, mkComparison_domain_name, ih]

theorem mem_unionNames {previous latest : List MetricSnapshot} {d : String} :
    d ∈ unionNames previous latest ↔
      d ∈ domainNames previous ∨ d ∈ domainNames latest := by
  simp only [unionNames, List.mem_append, List.mem_filter]
  constructor
  · rintro (h | ⟨h, _⟩)
    · exact Or.inl h
    · exact Or.inr h
  · rintro (h | h)
    · exact Or.inl h
    · by_cases hp : d ∈ domainNames previous
      · exact Or.inl hp
      · exact Or.inr ⟨h, by simp [hp]⟩

theorem unionNames_nodup {previous latest : List MetricSnapshot}
    (hp : (domainNames previous).Nodup) (hl : (domainNames latest).Nodup) :
    (unionNames previous latest).Nodup := by
  unfold unionNames
  rw [List.nodup_append]
  refine ⟨hp, hl.filter _, fun a ha haf => ?_⟩
  have h2 := (List.mem_filter.mp haf).2
  simp only [Bool.not_eq_true'] at h2
  have : a ∉ domainNames previous := by simpa using h2
  exact this ha

theorem eq_mkComparison_of_mem {previous latest : List MetricSnapshot}
    {row : DomainComparison} (h : row ∈ compareDomains previous latest) :
    row = mkComparison previous latest row.domain_name ∧
      row.domain_name ∈ unionNames previous latest := by
  unfold compareDomains at h
  rcases List.mem_map.mp h with ⟨n, hn, heq⟩
  subst heq
  simp only [mkComparison_domain_name]
  exact ⟨trivial, hn⟩

theorem findSnap_eq_none {l : List MetricSnapshot} {n : String}
    (h : n ∉ domainNames l) : findSnap n l = none := by
  refine List.find?_eq_none.mpr fun s hs => ?_
  simp only [beq_iff_eq]
  intro heq
  exact h (heq ▸ List.mem_map_of_mem (·.domain_name) hs)

theorem findSnap_eq_some {l : List MetricSnapshot}
    (hnd : (domainNames l).Nodup) {s : MetricSnapshot} (hs : s ∈ l) :
    findSnap s.domain_name l = some s := by
  induction l with
  | nil => cases hs
  | cons x xs ih =>
    simp only [domainNames, List.map_cons, List.nodup_cons] at hnd
    rcases List.mem_cons.mp hs with heq | hmem
    · subst heq
      unfold findSnap
      rw [List.find?_cons_of_pos]
      exact beq_self_eq_true s.domain_name
    · have hne : (x.domain_name == s.domain_name) ≠ true := by
        intro h
        rw [beq_iff_eq] at h
        exact hnd.1 (h ▸ List.mem_map_of_mem (·.domain_name) hmem)
      unfold findSnap
      rw [List.find?_cons_of_neg]
      · exact ih hnd.2 hmem
      · simpa using hne

/-! ### Helper lemmas about the ranking order -/

theorem charListLe_total : ∀ a b : List Char,
    charListLe a b = true ∨ charListLe b a = true
  | [], _ => Or.inl rfl
  | _ :: _, [] => Or.inr rfl
  | a :: as, b :: bs => by
    by_cases hab : a < b
    · exact Or.inl (by simp [charListLe, hab])
    · by_cases hba : b < a
      · exact Or.inr (by simp [charListLe, hba])
      · rcases charListLe_total as bs with h | h
        · exact Or.inl (by simp [charListLe, hab, hba, h])
        · exact Or.inr (by simp [charListLe, hab, hba, h])

theorem charListLe_trans : ∀ a b c : List Char,
    charListLe a b = true → charListLe b c = true → charListLe a c = true
  | [], _, _ => fun _ _ => rfl
  | _ :: _, [], _ => fun h1 _ => nomatch h1
  | _ :: _, _ :: _, [] => fun _ h2 => nomatch h2
  | a :: as, b :: bs, c :: cs => by
    intro h1 h2
    simp only [charListLe] at h1 h2 ⊢
    by_cases hab : a < b
    · by_cases hbc : b < c
      · simp [lt_trans hab hbc]
      · by_cases hcb : c < b
        · simp [hbc, hcb] at h2
        · have hbc' : b = c := le_antisymm (le_of_not_lt hcb) (le_of_not_lt hbc)
          simp [hbc' ▸ hab]
    · by_cases hba : b < a
      · simp [hab, hba] at h1
      · have hab' : a = b := le_antisymm (le_of_not_lt hba) (le_of_not_lt hab)
        by_cases hbc : b < c
        · simp [hab' ▸ hbc]
        · by_cases hcb : c < b
          · simp [hbc, hcb] at h2
          · have hbc' : b = c := le_antisymm (le_of_not_lt hcb) (le_of_not_lt hbc)
            rw [if_neg hab, if_neg hba] at h1
            rw [if_neg hbc, if_neg hcb] at h2
            have hac : ¬ a < c := by rw [hab', hbc']; exact lt_irrefl c
            have hca : ¬ c < a := by rw [hab', hbc']; exact lt_irrefl c
            rw [if_neg hac, if_neg hca]
            exact charListLe_trans as bs cs h1 h2

instance rankLETotal (sel : DomainComparison → Int) :
    IsTotal DomainComparison (rankLE sel) := by
  constructor
  intro a b
  rcases lt_trichotomy (sel a) (sel b) with h | h | h
  · exact Or.inr (Or.inl h)
  · rcases charListLe_total a.domain_name.toList b.domain_name.toList with hc | hc
    · exact Or.inl (Or.inr ⟨h, hc⟩)
    · exact Or.inr (Or.inr ⟨h.symm, hc⟩)
  · exact Or.inl (Or.inl h)

instance rankLETrans (sel : DomainComparison → Int) :
    IsTrans DomainComparison (rankLE sel) := by
  constructor
  intro a b c hab hbc
  rcases hab with h1 | ⟨e1, c1⟩
  · rcases hbc with h2 | ⟨e2, c2⟩
    · exact Or.inl (lt_trans h2 h1)
    · exact Or.inl (e2 ▸ h1)
  · rcases hbc with h2 | ⟨e2, c2⟩
    · exact Or.inl (by rw [e1]; exact h2)
    · exact Or.inr ⟨e1.trans e2, charListLe_trans _ _ _ c1 c2⟩

/-! ### Helper lemma for the summation property -/

theorem sum_changes_aux (previous latest : List MetricSnapshot) :
    ∀ names : List String,
      (((names.map (mkComparison previous latest)).map (·.users_change)).sum =
        ((names.map (mkComparison previous latest)).map
          (fun r => (r.latest_users : Int))).sum -
        ((names.map (mkComparison previous latest)).map
          (fun r => (r.previous_users : Int))).sum) ∧
      (((names.map (mkComparison previous latest)).map (·.views_change)).sum =
        ((names.map (mkComparison previous latest)).map
          (fun r => (r.latest_views : Int))).sum -
        ((names.map (mkComparison previous latest)).map
          (fun r => (r.previous_views : Int))).sum)
  | [] => by simp
  | n :: ns => by
    have ih := sum_changes_aux previous latest ns
    simp only [List.map_cons, List.sum_cons, mkComparison_users_change,
      mkComparison_views_change, ih.1, ih.2]
    constructor <;> ring

/-! ### Claim theorems for the diff engine -/

/-- Claim C1: for every pair of inputs each uniquely keyed by
`domain_name`, the set of `domain_name` values in the output of
`compareDomains` equals the union of the domain names in `previous` and
`latest`, and each `domain_name` appears in exactly one output row. -/
theorem compareDomains_union_coverage (previous latest : List MetricSnapshot)
    (hp : (domainNames previous).Nodup) (hl : (domainNames latest).Nodup) :
    ((compareDomains previous latest).map (·.domain_name)).Nodup ∧
    ∀ d : String, d ∈ (compareDomains previous latest).map (·.domain_name) ↔
      (d ∈ domainNames previous ∨ d ∈ domainNames latest) := by
  rw [compareDomains_names]
  exact ⟨unionNames_nodup hp hl, fun d => mem_unionNames⟩

/-- Witness for C1 at a concrete input. -/
theorem compareDomains_union_coverage_witness :
    ((compareDomains [⟨"a", 1, 2⟩] [⟨"b", 3, 4⟩]).map (·.domain_name)).Nodup :=
  (compareDomains_union_coverage [⟨"a", 1, 2⟩] [⟨"b", 3, 4⟩]
    (by decide) (by decide)).1

/-- Claim C2: a domain present only in `previous` gets `latest_* = 0`, a
domain present only in `latest` gets `previous_* = 0`, a domain present in
both carries both sides' values unchanged, and in all cases the change
fields equal latest minus previous. -/
theorem compareDomains_zero_fill (previous latest : List MetricSnapshot)
    (hp : (domainNames previous).Nodup) (hl : (domainNames latest).Nodup) :
    ∀ row ∈ compareDomains previous latest,
      (row.domain_name ∉ domainNames latest →
        row.latest_users = 0 ∧ row.latest_views = 0) ∧
      (row.domain_name ∉ domainNames previous →
        row.previous_users = 0 ∧ row.previous_views = 0) ∧
      (∀ s ∈ previous, s.domain_name = row.domain_name →
        row.previous_users = s.active_users ∧ row.previous_views = s.pageviews) ∧
      (∀ s ∈ latest, s.domain_name = row.domain_name →
        row.latest_users = s.active_users ∧ row.latest_views = s.pageviews) ∧
      row.users_change = (row.latest_users : Int) - (row.previous_users : Int) ∧
      row.views_change = (row.latest_views : Int) - (row.previous_views : Int) := by
  intro row hrow
  unfold compareDomains at hrow
  rcases List.mem_map.mp hrow with ⟨n, hn, rfl⟩
  simp only [mkComparison_domain_name]
  refine ⟨?_, ?_, ?_, ?_, mkComparison_users_change _ _ _,
    mkComparison_views_change _ _ _⟩
  · intro habs
    rw [mkComparison_latest_users, mkComparison_latest_views, findSnap_eq_none habs]
    exact ⟨rfl, rfl⟩
  · intro habs
    rw [mkComparison_previous_users, mkComparison_previous_views,
      findSnap_eq_none habs]
    exact ⟨rfl, rfl⟩
  · intro s hs hsn
    have hf : findSnap n previous = some s := hsn ▸ findSnap_eq_some hp hs
    rw [mkComparison_previous_users, mkComparison_previous_views, hf]
    exact ⟨rfl, rfl⟩
  · intro s hs hsn
    have hf : findSnap n latest = some s := hsn ▸ findSnap_eq_some hl hs
    rw [mkComparison_latest_users, mkComparison_latest_views, hf]
    exact ⟨rfl, rfl⟩

/-- Witness for C2 at a concrete input: the row of domain `b`, present
only in `latest`, carries the latest-side values. -/
theorem compareDomains_zero_fill_witness :
    (mkComparison [⟨"a", 0, 0⟩] [⟨"b", 5, 7⟩] "b").latest_users = 5 ∧
    (mkComparison [⟨"a", 0, 0⟩] [⟨"b", 5, 7⟩] "b").latest_views = 7 :=
  ((compareDomains_zero_fill [⟨"a", 0, 0⟩] [⟨"b", 5, 7⟩] (by decide) (by decide)
      (mkComparison [⟨"a", 0, 0⟩] [⟨"b", 5, 7⟩] "b")
      (by simp [compareDomains, unionNames, domainNames])).2.2.2.1)
    ⟨"b", 5, 7⟩ (by decide) rfl

/-- Claim C3: when the previous value of a measure is nonzero, the
percentage-change field equals `((latest − previous) / previous) × 100`
rounded to one decimal place; in particular previous=100, latest=150 gives
50.0 and previous=300, latest=301 gives 0.3. -/
theorem compareDomains_pct_formula (previous latest : List MetricSnapshot) :
    (∀ row ∈ compareDomains previous latest,
      (row.previous_users ≠ 0 →
        row.users_pct_change =
          round1 ((((row.latest_users : Int) - (row.previous_users : Int) : Int) : ℚ) /
            (row.previous_users : ℚ) * 100)) ∧
      (row.previous_views ≠ 0 →
        row.views_pct_change =
          round1 ((((row.latest_views : Int) - (row.previous_views : Int) : Int) : ℚ) /
            (row.previous_views : ℚ) * 100))) ∧
    (compareDomains [⟨"d", 100, 0⟩] [⟨"d", 150, 0⟩]).map (·.users_pct_change) = [50] ∧
    (compareDomains [⟨"d", 300, 0⟩] [⟨"d", 301, 0⟩]).map (·.users_pct_change) = [3 / 10] := by
  refine ⟨?_, ?_, ?_⟩
  · intro row hrow
    unfold compareDomains at hrow
    rcases List.mem_map.mp hrow with ⟨n, hn, rfl⟩
    constructor
    · intro hne
      rw [mkComparison_users_pct, mkComparison_users_change]
      unfold pctChange
      rw [if_neg hne]
    · intro hne
      rw [mkComparison_views_pct, mkComparison_views_change]
      unfold pctChange
      rw [if_neg hne]
  · norm_num [compareDomains, unionNames, domainNames, mkComparison, findSnap,
      pctChange, round1]
  · norm_num [compareDomains, unionNames, domainNames, mkComparison, findSnap,
      pctChange, round1]

/-- Witness for C3 at a concrete input. -/
theorem compareDomains_pct_formula_witness :
    (mkComparison [⟨"d", 100, 0⟩] [⟨"d", 150, 0⟩] "d").users_pct_change =
      round1 (((((mkComparison [⟨"d", 100, 0⟩] [⟨"d", 150, 0⟩] "d").latest_users : Int) -
        ((mkComparison [⟨"d", 100, 0⟩] [⟨"d", 150, 0⟩] "d").previous_users : Int) : Int) : ℚ) /
        ((mkComparison [⟨"d", 100, 0⟩] [⟨"d", 150, 0⟩] "d").previous_users : ℚ) * 100) :=
  ((compareDomains_pct_formula [⟨"d", 100, 0⟩] [⟨"d", 150, 0⟩]).1
      (mkComparison [⟨"d", 100, 0⟩] [⟨"d", 150, 0⟩] "d")
      (by simp [compareDomains, unionNames, domainNames])).1 (by decide)

/-- Claim C4: the engine's arithmetic is total — whenever the previous
value of a measure is 0 the percentage-change field is exactly 0, and both
percentage fields of every row are well-defined finite rationals with one
decimal place (an integer number of tenths, never NaN or Infinity). -/
theorem compareDomains_no_div_by_zero (previous latest : List MetricSnapshot) :
    ∀ row ∈ compareDomains previous latest,
      (row.previous_users = 0 → row.users_pct_change = 0) ∧
      (row.previous_views = 0 → row.views_pct_change = 0) ∧
      (∃ z : ℤ, row.users_pct_change = (z : ℚ) / 10) ∧
      (∃ z : ℤ, row.views_pct_change = (z : ℚ) / 10) := by
  intro row hrow
  unfold compareDomains at hrow
  rcases List.mem_map.mp hrow with ⟨n, hn, rfl⟩
  refine ⟨?_, ?_, ?_, ?_⟩
  · intro h0
    rw [mkComparison_users_pct]
    unfold pctChange
    rw [if_pos h0]
  · intro h0
    rw [mkComparison_views_pct]
    unfold pctChange
    rw [if_pos h0]
  · rw [mkComparison_users_pct]
    unfold pctChange
    by_cases h0 : (mkComparison previous latest n).previous_users = 0
    · exact ⟨0, by rw [if_pos h0]; norm_num⟩
    · exact ⟨⌊((mkComparison previous latest n).users_change : ℚ) /
          ((mkComparison previous latest n).previous_users : ℚ) * 100 * 10 + 1 / 2⌋,
        by rw [if_neg h0]; rfl⟩
  · rw [mkComparison_views_pct]
    unfold pctChange
    by_cases h0 : (mkComparison previous latest n).previous_views = 0
    · exact ⟨0, by rw [if_pos h0]; norm_num⟩
    · exact ⟨⌊((mkComparison previous latest n).views_change : ℚ) /
          ((mkComparison previous latest n).previous_views : ℚ) * 100 * 10 + 1 / 2⌋,
        by rw [if_neg h0]; rfl⟩

/-- Witness for C4 at a concrete input: previous=0, latest=0 gives a
percentage change of exactly 0. -/
theorem compareDomains_no_div_by_zero_witness :
    (mkComparison [⟨"z", 0, 3⟩] [] "z").users_pct_change = 0 :=
  (compareDomains_no_div_by_zero [⟨"z", 0, 3⟩] []
      (mkComparison [⟨"z", 0, 3⟩] [] "z")
      (by simp [compareDomains, unionNames, domainNames])).1 rfl

/-- Claim C5: the sum of `users_change` over all output rows equals the sum
of `latest_users` over all rows minus the sum of `previous_users` over all
rows, and likewise for `views_change` with views. -/
theorem compareDomains_summary_totals (previous latest : List MetricSnapshot) :
    (((compareDomains previous latest).map (·.users_change)).sum =
      ((compareDomains previous latest).map (fun r => (r.latest_users : Int))).sum -
      ((compareDomains previous latest).map (fun r => (r.previous_users : Int))).sum) ∧
    (((compareDomains previous latest).map (·.views_change)).sum =
      ((compareDomains previous latest).map (fun r => (r.latest_views : Int))).sum -
      ((compareDomains previous latest).map (fun r => (r.previous_views : Int))).sum) :=
  sum_changes_aux previous latest (unionNames previous latest)

/-- Claim C7: `compareDomains` is deterministic — any two invocations on
equal inputs produce equal outputs (the embedding is a pure function of its
two arguments; it has no other state to read or mutate). -/
theorem compareDomains_deterministic :
    ∀ previous1 latest1 previous2 latest2 : List MetricSnapshot,
      previous1 = previous2 → latest1 = latest2 →
      compareDomains previous1 latest1 = compareDomains previous2 latest2 := by
  intro p1 l1 p2 l2 hp hl
  rw [hp, hl]

/-- Witness for C7 at a concrete input. -/
theorem compareDomains_deterministic_witness :
    compareDomains [⟨"a", 1, 1⟩] [] = compareDomains [⟨"a", 1, 1⟩] [] :=
  compareDomains_deterministic [⟨"a", 1, 1⟩] [] [⟨"a", 1, 1⟩] [] rfl rfl

/-- Claim C6: the ranking helper returns the top-N rows ordered by
descending signed change with ties broken by `domain_name` ascending (the
top rows dominate, under that order, every row left out of the top-N, and
together with the leftover rows they are a permutation of the input), and
reports the gainer count, decliner count and total change over the full
input set. -/
theorem rankDomains_spec (sel : DomainComparison → Int) (n : Nat)
    (rows : List DomainComparison) :
    (rankDomains sel n rows).top.length = min n rows.length ∧
    List.Pairwise (rankLE sel) (rankDomains sel n rows).top ∧
    rows.Perm ((rankDomains sel n rows).top ++
      (List.insertionSort (rankLE sel) rows).drop n) ∧
    (∀ a ∈ (rankDomains sel n rows).top,
      ∀ b ∈ (List.insertionSort (rankLE sel) rows).drop n, rankLE sel a b) ∧
    (rankDomains sel n rows).gainers = rows.countP (fun r => decide (0 < sel r)) ∧
    (rankDomains sel n rows).decliners = rows.countP (fun r => decide (sel r < 0)) ∧
    (rankDomains sel n rows).total_change = (rows.map sel).sum := by
  have hsorted : List.Pairwise (rankLE sel) (List.insertionSort (rankLE sel) rows) :=
    List.sorted_insertionSort (rankLE sel) rows
  have hperm := List.perm_insertionSort (rankLE sel) rows
  have hsplit : (List.insertionSort (rankLE sel) rows).take n ++
      (List.insertionSort (rankLE sel) rows).drop n =
        List.insertionSort (rankLE sel) rows := List.take_append_drop n _
  refine ⟨?_, ?_, ?_, ?_, ?_, ?_, rfl⟩
  · show ((List.insertionSort (rankLE sel) rows).take n).length = min n rows.length
    rw [List.length_take, hperm.length_eq]
  · exact List.Pairwise.sublist (List.take_sublist n _) hsorted
  · show rows.Perm ((List.insertionSort (rankLE sel) rows).take n ++
      (List.insertionSort (rankLE sel) rows).drop n)
    rw [hsplit]
    exact hperm.symm
  · have hs2 : List.Pairwise (rankLE sel)
        ((List.insertionSort (rankLE sel) rows).take n ++
          (List.insertionSort (rankLE sel) rows).drop n) := by
      rw [hsplit]; exact hsorted
    exact (List.pairwise_append.mp hs2).2.2
  · show (rows.filter _).length = _
    rw [List.countP_eq_length_filter]
  · show (rows.filter _).length = _
    rw [List.countP_eq_length_filter]

/-- Witness for C6 at a concrete input. -/
theorem rankDomains_spec_witness :
    (rankDomains (fun r => r.users_change) 1
        [⟨"a", 1, 2, 3, 4, 1, 1, 0, 0⟩]).top.length =
      min 1 [(⟨"a", 1, 2, 3, 4, 1, 1, 0, 0⟩ : DomainComparison)].length :=
  (rankDomains_spec (fun r => r.users_change) 1 [⟨"a", 1, 2, 3, 4, 1, 1, 0, 0⟩]).1

/-! ### Claim theorems for the stats route -/

/-- Counterexample to C8 as stated: the `top-domains` query of the stats
route does not target the scheduled script's table
`iab-publisher-data.dap_daily.dap_domain`. -/
theorem statsRoute_topDomains_table_differs :
    statsQueryTable StatsQueryType.topDomains ≠ scheduledScriptTable ∧
    scheduledScriptTable = "iab-publisher-data.dap_daily.dap_domain" := by
  constructor
  · decide
  · rfl

/-- Claim C8 (amended): the stats endpoint has exactly three request types,
each bound to one fixed SQL query with an empty parameter list, and any
query it ever issues is one of those three; the `trend` and `platform`
queries target the scheduled script's table
`iab-publisher-data.dap_daily.dap_domain`, while `top-domains` targets
`iab-publisher-data.da_monthly.mv_domain_monthly_metrics`. -/
theorem statsRoute_three_fixed_queries :
    (∀ t : StatsQueryType, t = StatsQueryType.trend ∨
      t = StatsQueryType.topDomains ∨ t = StatsQueryType.platform) ∧
    statsQueryTable StatsQueryType.trend = scheduledScriptTable ∧
    statsQueryTable StatsQueryType.platform = scheduledScriptTable ∧
    statsQueryTable StatsQueryType.topDomains =
      "iab-publisher-data.da_monthly.mv_domain_monthly_metrics" ∧
    (∀ t : StatsQueryType, statsQueryParams t = []) ∧
    (∀ (tp : Option String) (bq : String → Except String (List BQRow)),
      (GET tp bq).issuedQuery = none ∨
      ∃ t : StatsQueryType, (GET tp bq).issuedQuery = some (statsQuerySQL t)) := by
  refine ⟨?_, rfl, rfl, rfl, fun _ => rfl, ?_⟩
  · intro t
    cases t
    · exact Or.inl rfl
    · exact Or.inr (Or.inl rfl)
    · exact Or.inr (Or.inr rfl)
  · intro tp bq
    unfold GET
    cases hpt : parseStatsType tp with
    | none => exact Or.inl rfl
    | some t =>
      cases hbq : bq (statsQuerySQL t) with
      | ok resultRows => exact Or.inr ⟨t, by simp [hbq]⟩
      | error err => exact Or.inr ⟨t, by simp [hbq]⟩

/-- Claim C9: a missing or unrecognised `type` parameter yields a 400
response with body `{"error": "Invalid type"}` without issuing any
BigQuery query, and a thrown query yields a 500 response with body
`{"error": "Internal Server Error"}`. -/
theorem GET_error_handling :
    ∀ (tp : Option String) (bq : String → Except String (List BQRow)),
      ((tp = none ∨ ∃ s, tp = some s ∧ s ≠ "trend" ∧ s ≠ "top-domains" ∧
          s ≠ "platform") →
        GET tp bq = ⟨400, StatsBody.errorMsg "Invalid type", none⟩) ∧
      (∀ (t : StatsQueryType) (e : String), parseStatsType tp = some t →
        bq (statsQuerySQL t) = Except.error e →
        GET tp bq = ⟨500, StatsBody.errorMsg "Internal Server Error",
          some (statsQuerySQL t)⟩) := by
  intro tp bq
  constructor
  · intro h
    have hnone : parseStatsType tp = none := by
      rcases h with rfl | ⟨s, rfl, h1, h2, h3⟩
      · rfl
      · unfold parseStatsType
        split <;> simp_all
    unfold GET
    rw [hnone]
  · intro t e hpt hbq
    simp [GET, hpt, hbq]

/-- Witness for C9 at a concrete input. -/
theorem GET_error_handling_witness :
    GET (some "bogus") (fun _ => Except.error "boom") =
      ⟨400, StatsBody.errorMsg "Invalid type", none⟩ :=
  (GET_error_handling (some "bogus") (fun _ => Except.error "boom")).1
    (Or.inr ⟨"bogus", rfl, by decide, by decide, by decide⟩)

/-- Counterexample to C10 as stated: a `date` field holding a structured
date object with a `.value` property equal to the empty string (falsy in
JavaScript) is not replaced by that value, so a successful response can
still contain a structured date object. -/
theorem serializeRow_keeps_falsy_date :
    serializeRow [("date", BQValue.dateObj "")] = [("date", BQValue.dateObj "")] ∧
    BQValue.dateObj "" ≠ BQValue.str "" := by
  constructor
  · rfl
  · decide

/-- Claim C10 (amended): for every row of a successful response, no field
is a BigInt (every BigInt is converted to a number); the `date` field, when
it is a structured date object with a truthy (non-empty) `.value`, is
replaced by that value; and every non-`date`, non-BigInt field is left
unchanged. -/
theorem serializeRow_spec :
    ∀ row : BQRow,
      (∀ kv ∈ serializeRow row, ∀ z : Int, kv.2 ≠ BQValue.bigint z) ∧
      (∀ v : String, v ≠ "" → ("date", BQValue.dateObj v) ∈ row →
        ("date", BQValue.str v) ∈ serializeRow row) ∧
      (∀ kv ∈ row, kv.1 ≠ "date" → (∀ z : Int, kv.2 ≠ BQValue.bigint z) →
        kv ∈ serializeRow row) := by
  intro row
  refine ⟨?_, ?_, ?_⟩
  · intro kv hkv z heq
    unfold serializeRow at hkv
    rcases List.mem_map.mp hkv with ⟨kv1, _, rfl⟩
    cases hv : kv1.2 <;> rw [hv] at heq <;> simp [serializeField] at heq
  · intro v hv hmem
    have h1 : ("date", BQValue.str v) ∈ unwrapDate row := by
      unfold unwrapDate
      have h0 := List.mem_map_of_mem (fun kv : String × BQValue =>
        if kv.1 = "date" then
          match kv.2 with
          | BQValue.dateObj w => if w = "" then kv else ("date", BQValue.str w)
          | _ => kv
        else kv) hmem
      simpa [hv] using h0
    unfold serializeRow
    have h2 := List.mem_map_of_mem
      (fun kv : String × BQValue => (kv.1, serializeField kv.2)) h1
    simpa [serializeField] using h2
  · intro kv hkv hkey hnb
    have h1 : kv ∈ unwrapDate row := by
      unfold unwrapDate
      have h0 := List.mem_map_of_mem (fun kv : String × BQValue =>
        if kv.1 = "date" then
          match kv.2 with
          | BQValue.dateObj w => if w = "" then kv else ("date", BQValue.str w)
          | _ => kv
        else kv) hkv
      simpa [hkey] using h0
    have h2 := List.mem_map_of_mem
      (fun kv : String × BQValue => (kv.1, serializeField kv.2)) h1
    have hs : serializeField kv.2 = kv.2 := by
      cases hv : kv.2 with
      | bigint z => exact absurd hv (hnb z)
      | num z => rfl
      | str s => rfl
      | dateObj w => rfl
      | null => rfl
    have h3 : (kv.1, serializeField kv.2) = kv := by rw [hs]
    unfold serializeRow
    exact h3 ▸ h2

/-- Witness for C10 (amended) at a concrete input. -/
theorem serializeRow_spec_witness :
    ("date", BQValue.str "2025-11-21") ∈
      serializeRow [("date", BQValue.dateObj "2025-11-21"),
        ("views", BQValue.bigint 5)] :=
  (serializeRow_spec [("date", BQValue.dateObj "2025-11-21"),
      ("views", BQValue.bigint 5)]).2.1
    "2025-11-21" (by decide) (by decide)
